import Mathlib

/-!
Shallow embedding of the zap-syslog repository: the RFC5424 syslog message
encoder (`encoder.go`), the facility lookup table (`syslog/syslog.go`), and
the reconnecting write syncer (`syncer.go`).  Go strings are modelled as
Lean `String` (sequences of runes); byte buffers are modelled as `List Nat`
of byte values; the UTF-8 encoding of a string is made explicit where the
Go code measures or assembles bytes.
-/

namespace ZapSyslog

/-! ### syslog package: priorities and facility lookup (`syslog/syslog.go`) -/

/-- Severity constants from `syslog/syslog.go` (`LOG_EMERG Priority = iota` …). -/
def LOG_EMERG : Nat := 0
def LOG_ALERT : Nat := 1
def LOG_CRIT : Nat := 2
def LOG_ERR : Nat := 3
def LOG_WARNING : Nat := 4
def LOG_NOTICE : Nat := 5
def LOG_INFO : Nat := 6
def LOG_DEBUG : Nat := 7

/-- Facility constants from `syslog/syslog.go` (`LOG_KERN Priority = iota << 3` …). -/
def LOG_KERN : Nat := 0 <<< 3
def LOG_USER : Nat := 1 <<< 3
def LOG_MAIL : Nat := 2 <<< 3
def LOG_DAEMON : Nat := 3 <<< 3
def LOG_AUTH : Nat := 4 <<< 3
def LOG_SYSLOG : Nat := 5 <<< 3
def LOG_LPR : Nat := 6 <<< 3
def LOG_NEWS : Nat := 7 <<< 3
def LOG_UUCP : Nat := 8 <<< 3
def LOG_CRON : Nat := 9 <<< 3
def LOG_AUTHPRIV : Nat := 10 <<< 3
def LOG_FTP : Nat := 11 <<< 3
def LOG_LOCAL0 : Nat := 16 <<< 3
def LOG_LOCAL1 : Nat := 17 <<< 3
def LOG_LOCAL2 : Nat := 18 <<< 3
def LOG_LOCAL3 : Nat := 19 <<< 3
def LOG_LOCAL4 : Nat := 20 <<< 3
def LOG_LOCAL5 : Nat := 21 <<< 3
def LOG_LOCAL6 : Nat := 22 <<< 3
def LOG_LOCAL7 : Nat := 23 <<< 3

/-- The `facilityMap` table from `syslog/syslog.go`, as an association list. -/
def facilityMap : List (String × Nat) :=
  [("KERN", LOG_KERN), ("USER", LOG_USER), ("MAIL", LOG_MAIL),
   ("DAEMON", LOG_DAEMON), ("AUTH", LOG_AUTH), ("SYSLOG", LOG_SYSLOG),
   ("LPR", LOG_LPR), ("NEWS", LOG_NEWS), ("UUCP", LOG_UUCP),
   ("CRON", LOG_CRON), ("AUTHPRIV", LOG_AUTHPRIV), ("FTP", LOG_FTP),
   ("LOCAL0", LOG_LOCAL0), ("LOCAL1", LOG_LOCAL1), ("LOCAL2", LOG_LOCAL2),
   ("LOCAL3", LOG_LOCAL3), ("LOCAL4", LOG_LOCAL4), ("LOCAL5", LOG_LOCAL5),
   ("LOCAL6", LOG_LOCAL6), ("LOCAL7", LOG_LOCAL7)]

/-- Per-rune model of Go's `unicode.ToUpper` restricted to what the
facility lookup can observe: ASCII case mapping plus the only two
non-ASCII runes whose Unicode simple uppercase is an ASCII letter —
U+0131 (dotless i) ↦ `I` and U+017F (long s) ↦ `S`.  Other non-ASCII
runes are left unchanged where Go may map them to a non-ASCII uppercase;
since the facility table is all-ASCII, this never changes whether an
upper-cased string matches a table key, and can differ from Go only in
non-ASCII runes echoed back inside the error text (which the claim
theorems therefore assert only for ASCII inputs). -/
def goRuneToUpper (c : Char) : Char :=
  if c.toNat = 0x131 then 'I'
  else if c.toNat = 0x17f then 'S'
  else c.toUpper

/-- Model of `strings.ToUpper` as applied to facility names: Go maps the
string rune by rune through `unicode.ToUpper`. -/
def goToUpper (s : String) : String := ⟨s.data.map goRuneToUpper⟩

/-- Per-character ASCII lower-casing (agrees with Go's `strings.ToLower` on
the ASCII facility names). -/
def goToLower (s : String) : String := ⟨s.data.map Char.toLower⟩

/-- Function `FacilityPriority` from `syslog/syslog.go`: reassign the name
to its upper-cased form (`facility = strings.ToUpper(facility)`), look it
up in `facilityMap`; on a miss return priority 0 together with the error
message produced by `fmt.Errorf` — which therefore carries the
*upper-cased* name.  The pair models Go's `(Priority, error)` return, the
second component `none` meaning `nil`. -/
def FacilityPriority (facility : String) : Nat × Option String :=
  let facility := goToUpper facility
  match facilityMap.lookup facility with
  | some prio => (prio, none)
  | none => (0, some ("invalid syslog facility: " ++ facility))

/-! ### Levels and severity mapping (`encoder.go`, `EncodeEntry` switch) -/

/-- The seven zapcore log levels handled by the `switch ent.Level` in
`EncodeEntry`. -/
inductive Level where
  | debug | info | warn | error | dpanic | panic | fatal
deriving DecidableEq, Repr

/-- The `switch ent.Level` in `EncodeEntry`, mapping a level to the syslog
severity constant assigned to `p`. -/
def severityOf : Level → Nat
  | .fatal => LOG_EMERG
  | .panic => LOG_CRIT
  | .dpanic => LOG_CRIT
  | .error => LOG_ERR
  | .warn => LOG_WARNING
  | .info => LOG_INFO
  | .debug => LOG_DEBUG

/-- Constants from `encoder.go`. -/
def version : Nat := 1
def severityMask : Nat := 0x07
def facilityMask : Nat := 0xf8
def nilValue : String := "-"
def maxHostnameLen : Nat := 255
def maxAppNameLen : Nat := 48

/-! ### Name sanitizer (`rfc5424CompliantASCIIMapper`, `toRFC5424CompliantASCIIString`) -/

/-- Function `rfc5424CompliantASCIIMapper` from `encoder.go`: a rune below 33 or above
126 becomes `_`, anything else passes through. -/
def rfc5424CompliantASCIIMapper (r : Char) : Char :=
  if r.toNat < 33 || r.toNat > 126 then '_' else r

/-- Function `toRFC5424CompliantASCIIString`: `strings.Map` applies the mapper to each
rune of the string (the mapper never drops a rune). -/
def toRFC5424CompliantASCIIString (s : String) : String :=
  ⟨s.data.map rfc5424CompliantASCIIMapper⟩

/-! ### UTF-8 byte model -/

/-- Standard UTF-8 encoding of one rune, as byte values. -/
def utf8Bytes (c : Char) : List Nat :=
  let n := c.toNat
  if n < 0x80 then [n]
  else if n < 0x800 then
    [0xc0 ||| (n >>> 6), 0x80 ||| (n &&& 0x3f)]
  else if n < 0x10000 then
    [0xe0 ||| (n >>> 12), 0x80 ||| ((n >>> 6) &&& 0x3f), 0x80 ||| (n &&& 0x3f)]
  else
    [0xf0 ||| (n >>> 18), 0x80 ||| ((n >>> 12) &&& 0x3f),
     0x80 ||| ((n >>> 6) &&& 0x3f), 0x80 ||| (n &&& 0x3f)]

/-- The bytes of a Go string (UTF-8). -/
def strBytes (s : String) : List Nat := (s.data.map utf8Bytes).flatten

/-- Go's `len` on a string: its byte length. -/
def goLen (s : String) : Nat := (strBytes s).length

/-- Char-level helper for `goTake`. -/
def goTakeAux : List Char → Nat → List Char
  | [], _ => []
  | c :: cs, n =>
    let k := (utf8Bytes c).length
    if k ≤ n then c :: goTakeAux cs (n - k) else []

/-- Go's byte-slicing `s[:n]`, modelled at rune granularity: keep leading
runes while their cumulative UTF-8 size fits in `n`.  This equals Go's byte
slice whenever the cut does not split a rune — in particular on the
all-ASCII strings the encoder slices (sanitizer output). -/
def goTake (s : String) (n : Nat) : String := ⟨goTakeAux s.data n⟩

/-- Function `path.Base` from Go's `path` package, as called by `NewSyslogEncoder`:
empty input gives ".", otherwise strip trailing slashes, keep the part
after the last slash, and a string of only slashes gives "/". -/
def pathBase (s : String) : String :=
  if s = "" then "."
  else
    let r := s.data.reverse.dropWhile (fun c => c = '/')
    if r = [] then "/"
    else ⟨(r.takeWhile (fun c => c ≠ '/')).reverse⟩

/-! ### Go `time.Time` model and the `timestampFormat` layout

`encoder.go` formats `ent.Time` with the layout
`"2006-01-02T15:04:05.000000Z07:00"` (RFC3339 with a 6-digit truncated
fraction).  Go's `Format` renders a time in the civil calendar of the
time's *attached* location and prints `Z` only when that location's offset
is zero.  We model a time by its absolute instant (seconds since
0001-01-01T00:00:00 UTC plus nanoseconds) together with the attached
zone offset in seconds. -/

structure GoTime where
  sec : Int
  nsec : Nat
  offset : Int
deriving DecidableEq, Repr

/-- Go `Time.IsZero`: the instant is January 1, year 1, 00:00:00 UTC
(the attached location is irrelevant). -/
def GoTime.isZero (t : GoTime) : Bool := t.sec = 0 && t.nsec = 0

/-- Gregorian leap-year test. -/
def isLeap (y : Nat) : Bool := y % 4 = 0 && (y % 100 ≠ 0 || y % 400 = 0)

/-- Days in the months before month `m` (1-based) of a year with the given
leap flag. -/
def daysBeforeMonth (leap : Bool) (m : Nat) : Nat :=
  (match m with
   | 1 => 0 | 2 => 31 | 3 => 59 | 4 => 90 | 5 => 120 | 6 => 151
   | 7 => 181 | 8 => 212 | 9 => 243 | 10 => 273 | 11 => 304 | _ => 334)
  + (if leap && m > 2 then 1 else 0)

/-- Days from 0001-01-01 to the civil date `y-m-d` (proleptic Gregorian,
`y ≥ 1`). -/
def daysFromCivil (y m d : Nat) : Nat :=
  let py := y - 1
  365 * py + (py / 4 - py / 100 + py / 400) + daysBeforeMonth (isLeap y) m + (d - 1)

/-- Civil date `(year, month, day)` of day number `z` counted from
0001-01-01 (inverse of `daysFromCivil`; standard era-based conversion). -/
def civilFromDays (z : Nat) : Nat × Nat × Nat :=
  let z := z + 306
  let era := z / 146097
  let doe := z % 146097
  let yoe := (doe - doe / 1460 + doe / 36524 - doe / 146096) / 365
  let y := yoe + era * 400
  let doy := doe - (365 * yoe + yoe / 4 - yoe / 100)
  let mp := (5 * doy + 2) / 153
  let d := doy - (153 * mp + 2) / 5 + 1
  let m := if mp < 10 then mp + 3 else mp - 9
  (if m ≤ 2 then y + 1 else y, m, d)

/-- Decimal rendering left-padded with zeros to width `w`. -/
def padNum (w n : Nat) : String :=
  let s := toString n
  ⟨List.replicate (w - s.length) '0'⟩ ++ s

/-- The sign and `hh:mm` rendering of a zone offset, as Go's `Z07:00` layout
verb prints it for a nonzero offset. -/
def offsetPart (offset : Int) : String :=
  (if offset ≥ 0 then "+" else "-")
    ++ padNum 2 (offset.natAbs / 3600) ++ ":" ++ padNum 2 (offset.natAbs % 3600 / 60)

/-- Go's `Format` with the `timestampFormat` layout of `encoder.go`:
the civil fields of the instant in the attached zone, a dot, the
nanoseconds truncated to 6 digits, and `Z` or `±hh:mm`.  (Defined for
instants at or after year 1 in local time, the only ones the theorems
use.) -/
def goFormatTimestamp (t : GoTime) : String :=
  let ls := (t.sec + t.offset).toNat
  let (y, m, d) := civilFromDays (ls / 86400)
  let rem := ls % 86400
  padNum 4 y ++ "-" ++ padNum 2 m ++ "-" ++ padNum 2 d ++ "T"
    ++ padNum 2 (rem / 3600) ++ ":" ++ padNum 2 (rem % 3600 / 60) ++ ":"
    ++ padNum 2 (rem % 60) ++ "." ++ padNum 6 (t.nsec / 1000)
    ++ (if t.offset = 0 then "Z" else offsetPart t.offset)

/-- Go's `time.Date(y, m, d, h, min, s, nsec, loc)` for a fixed-offset
location: the civil fields are interpreted in the given zone. -/
def goDate (y m d h mi s nsec : Nat) (offset : Int) : GoTime :=
  { sec := ((daysFromCivil y m d * 86400 + h * 3600 + mi * 60 + s : Nat) : Int) - offset
    nsec := nsec
    offset := offset }

/-! ### Encoder configuration and construction (`NewSyslogEncoder`) -/

/-- RFC6587 TCP transport framing (`Framing` in `encoder.go`). -/
inductive Framing where
  | nonTransparent
  | octetCounting
deriving DecidableEq, Repr

def DefaultFraming : Framing := .nonTransparent

/-- Record `SyslogEncoderConfig` from `encoder.go`.  Of the embedded
`zapcore.EncoderConfig` we track the one field the syslog encoder touches,
`LineEnding`; the remaining JSON-encoder configuration is opaque to it. -/
structure SyslogEncoderConfig where
  lineEnding : String
  framing : Framing
  facility : Nat
  hostname : String
  pid : Int
  app : String
deriving DecidableEq, Repr

/-- Function `NewSyslogEncoder` from `encoder.go`, as the transformation it performs
on its configuration record.  `osHostname` and `osPid` stand for the
results of `os.Hostname()` and `os.Getpid()`.  Note that the `else` branch
for a non-empty `cfg.App` computes a normalized name (`path.Base`,
truncation, sanitization) into a local variable and never assigns it back:
`cfg.App` keeps the raw input. -/
def NewSyslogEncoder (osHostname : String) (osPid : Int)
    (cfg : SyslogEncoderConfig) : SyslogEncoderConfig :=
  let cfg := if cfg.hostname = "" then { cfg with hostname := osHostname } else cfg
  let cfg :=
    if cfg.hostname = "" then { cfg with hostname := nilValue }
    else
      let hostname := toRFC5424CompliantASCIIString cfg.hostname
      let hostname := if goLen hostname > maxHostnameLen then goTake hostname maxHostnameLen else hostname
      { cfg with hostname := hostname }
  let cfg := if cfg.pid = (0 : Int) then { cfg with pid := osPid } else cfg
  let cfg :=
    if cfg.app = "" then { cfg with app := nilValue }
    else cfg
  { cfg with lineEnding := "\n" }

/-- The normalization of a non-empty app-name that `NewSyslogEncoder`
computes into its local `app` variable (and then discards): reduce to the
final path segment if longer than 48 bytes, hard-truncate to 48 bytes if
still longer, then sanitize. -/
def normalizeAppName (app : String) : String :=
  let app := if goLen app > maxAppNameLen then pathBase app else app
  let app := if goLen app > maxAppNameLen then goTake app maxAppNameLen else app
  toRFC5424CompliantASCIIString app

/-! ### `EncodeEntry` -/

/-- The parts of a `zapcore.Entry` that `EncodeEntry` reads: the level and
the timestamp.  The message itself is serialized by the external JSON
payload encoder. -/
structure Entry where
  level : Level
  time : GoTime

/-- The `pr` computation of `EncodeEntry`:
`(enc.Facility & facilityMask) | (p & severityMask)`. -/
def priorityFor (facility : Nat) (l : Level) : Nat :=
  (facility &&& facilityMask) ||| (severityOf l &&& severityMask)

/-- The TIMESTAMP header field `EncodeEntry` emits: `-` for the zero time,
otherwise the `timestampFormat` rendering of `ent.Time`. -/
def timestampField (t : GoTime) : String :=
  if t.isZero then nilValue else goFormatTimestamp t

/-- The header bytes `EncodeEntry` assembles before the payload:
`<PRI>VERSION SP TIMESTAMP SP HOSTNAME SP APP-NAME SP PROCID SP - -`.
Each `++` mirrors one `msg.Append…` call. -/
def headerBytes (cfg : SyslogEncoderConfig) (ent : Entry) : List Nat :=
  strBytes "<" ++ strBytes (toString (priorityFor cfg.facility ent.level))
  ++ strBytes ">" ++ strBytes (toString version)
  ++ strBytes " " ++ strBytes (timestampField ent.time)
  ++ strBytes " " ++ strBytes cfg.hostname
  ++ strBytes " " ++ strBytes cfg.app
  ++ strBytes " " ++ strBytes (toString cfg.pid)
  ++ strBytes " - -"

/-- Function `EncodeEntry` from `encoder.go`, at the byte level.  `payload` stands
for the bytes of the buffer returned by the internal JSON encoder's
`EncodeEntry` (`json.Bytes()`); the JSON encoder's error is passed through
unchanged alongside the buffer and plays no part in its assembly.  A
non-empty payload is embedded behind a space and the UTF-8 BOM; for
octet-counting framing the payload's final byte is stripped before
embedding and the message is re-emitted behind its decimal byte length
and a space. -/
def EncodeEntry (cfg : SyslogEncoderConfig) (ent : Entry) (payload : List Nat) :
    List Nat :=
  let msg :=
    headerBytes cfg ent
    ++ (if payload.length > 0 then
          strBytes " " ++ [0xef, 0xbb, 0xbf]
          ++ (if cfg.framing = .octetCounting then payload.dropLast else payload)
        else [])
  if cfg.framing ≠ .octetCounting then msg
  else strBytes (toString msg.length) ++ strBytes " " ++ msg

/-! ### Reconnecting write syncer (`syncer.go`)

`connSyncer` holds at most one live connection.  The network is modelled
as an oracle fixed for the duration of one `Write` call: `dial` is the
outcome `net.Dial` would produce, and `write c` the outcome of writing the
call's byte slice on connection `c`.  Every externally visible action is
recorded in an event trace. -/

/-- A connection handle (`net.Conn`). -/
abbrev Conn := Nat

/-- Observable actions of one `Write` call. -/
inductive Ev where
  | close (c : Conn)
  | dial
  | write (c : Conn)
deriving DecidableEq, Repr

/-- Outcomes the network produces during one `Write` call. -/
structure Net where
  dial : Except Nat Conn
  write : Conn → Except Nat Nat

/-- The `conn` field of `connSyncer`; `none` models a nil connection. -/
structure SyncerState where
  conn : Option Conn
deriving DecidableEq, Repr

/-- The close events `connect` performs: one `close` if a previous
connection exists. -/
def closeEvs (s : SyncerState) : List Ev :=
  match s.conn with
  | some c => [Ev.close c]
  | none => []

/-- The events of a failed first write attempt, if a connection existed. -/
def preEvs (s : SyncerState) : List Ev :=
  match s.conn with
  | some c => [Ev.write c]
  | none => []

/-- Method `connSyncer.connect` of the syncer: close (and nil out) any previous connection,
ignoring the close error, then dial; on dial failure the error is returned
with no live connection, on success the fresh connection is installed. -/
def connSyncerConnect (net : Net) (s : SyncerState) :
    Except Nat Conn × SyncerState × List Ev :=
  match net.dial with
  | .error e => (.error e, ⟨none⟩, closeEvs s ++ [Ev.dial])
  | .ok c => (.ok c, ⟨some c⟩, closeEvs s ++ [Ev.dial])

/-- The reconnect-and-retry tail of `connSyncer.Write`: `connect`, returning
its error on failure, otherwise one more write on the fresh connection
whose result is returned as-is.  `pre` carries the events of the failed
first write, if any. -/
def connSyncerRetry (net : Net) (s : SyncerState) (pre : List Ev) :
    Except Nat Nat × SyncerState × List Ev :=
  match connSyncerConnect net s with
  | (.error e, s', evs) => (.error e, s', pre ++ evs)
  | (.ok c, s', evs) => (net.write c, s', pre ++ evs ++ [Ev.write c])

/-- Method `connSyncer.Write` of the syncer: if a live connection exists, try the write and
return its count on success (the first write's error is discarded);
otherwise reconnect and retry once. -/
def connSyncerWrite (net : Net) (s : SyncerState) :
    Except Nat Nat × SyncerState × List Ev :=
  match s.conn with
  | some c =>
    match net.write c with
    | .ok n => (.ok n, s, [Ev.write c])
    | .error _ => connSyncerRetry net s [Ev.write c]
  | none => connSyncerRetry net s []

/-! ### Encoder cloning (`syslogEncoder.clone`)

`clone` shares the `SyslogEncoderConfig` pointer and deep-copies the JSON
encoder (whose state is the list of fields accumulated so far).  Pointer
aliasing is modelled by a heap of encoder instances addressed by index:
each instance pairs its (shared) configuration with its own accumulated
fields, `clone` appends a copy of an instance, and adding a field mutates
exactly one heap slot. -/

/-- An accumulated field, as the external JSON encoder stores it:
a key together with its serialized value. -/
abbrev SField := String × String

/-- A heap of live encoder instances. -/
abbrev EncHeap := List (SyslogEncoderConfig × List SField)

/-- Method `syslogEncoder.clone`, on the heap: a fresh instance with the same
configuration (shared) and a copy of the accumulated fields; returns the
new instance's address. -/
def cloneEnc (h : EncHeap) (i : Nat) : EncHeap × Nat :=
  match h[i]? with
  | some e => (h ++ [e], h.length)
  | none => (h, i)

/-- A typed `Add…` call on instance `i`: append one field to that
instance's accumulated state. -/
def addFieldEnc (h : EncHeap) (i : Nat) (f : SField) : EncHeap :=
  match h[i]? with
  | some (c, fs) => h.set i (c, fs ++ [f])
  | none => h

/-- The encoded output instance `i` would produce for an entry, given the
serialization the external JSON encoder derives from the accumulated
fields (a function of the field list). -/
def encOutput (h : EncHeap) (i : Nat) (ent : Entry)
    (serialize : List SField → List Nat) : Option (List Nat) :=
  (h[i]?).map fun e => EncodeEntry e.1 ent (serialize e.2)

/-! ### Spec-side definitions

Definitions written from the specification's words, to be compared with
the definitions translated from the source. -/

/-- The severity table as the specification states it:
fatal→0 (emergency), panic/double-panic→2 (critical), error→3,
warning→4, info→6, debug→7. -/
def severitySpec : Level → Nat
  | .fatal => 0
  | .panic => 2
  | .dpanic => 2
  | .error => 3
  | .warn => 4
  | .info => 6
  | .debug => 7

/-- The TIMESTAMP field as the claim describes it: `-` for the zero time,
otherwise the timestamp rendered **as UTC** (offset zero, hence a `Z`
suffix), regardless of the attached zone. -/
def timestampFieldSpecUTC (t : GoTime) : String :=
  if t.isZero then nilValue
  else goFormatTimestamp { t with offset := 0 }

/-- The per-rune substitution as the claim states it: every rune with
codepoint < 33 or > 126 becomes a single `_`, everything else passes
through. -/
def sanitizeMapperSpec (c : Char) : Char :=
  if c.toNat < 33 ∨ 126 < c.toNat then '_' else c

/-- Modelled from the spec: the external StructuredPayloadEncoder
(`zapcore`'s JSON encoder, not part of this repository) "returns a
terminated byte buffer": the serialized JSON content followed by the
configured line ending. -/
def jsonPayloadBytes (cfg : SyslogEncoderConfig) (content : String) : List Nat :=
  strBytes content ++ strBytes cfg.lineEnding

/-! ### Helper lemmas -/

theorem mapper_range (c : Char) :
    33 ≤ (rfc5424CompliantASCIIMapper c).toNat ∧
      (rfc5424CompliantASCIIMapper c).toNat ≤ 126 := by
  unfold rfc5424CompliantASCIIMapper
  split
  · exact ⟨by decide, by decide⟩
  · rename_i h
    simp only [Bool.or_eq_true, decide_eq_true_eq, not_or] at h
    omega

theorem mapper_eq_spec (c : Char) :
    rfc5424CompliantASCIIMapper c = sanitizeMapperSpec c := by
  unfold rfc5424CompliantASCIIMapper sanitizeMapperSpec
  rcases Nat.lt_or_ge c.toNat 33 with h | h
  · rw [if_pos, if_pos] <;> simp [h]
  · rcases Nat.lt_or_ge 126 c.toNat with h' | h'
    · rw [if_pos, if_pos] <;> simp [h, h']
    · rw [if_neg, if_neg] <;> simp [*]

theorem utf8Bytes_ascii {c : Char} (h : c.toNat < 128) : utf8Bytes c = [c.toNat] := by
  unfold utf8Bytes
  rw [if_pos (by omega)]

theorem strBytes_ascii_of_chars {l : List Char} (h : ∀ c ∈ l, c.toNat < 128) :
    (l.map utf8Bytes).flatten = l.map Char.toNat := by
  induction l with
  | nil => rfl
  | cons c cs ih =>
    simp only [List.map_cons, List.flatten_cons,
      utf8Bytes_ascii (h c (List.mem_cons_self c cs))]
    rw [ih fun x hx => h x (List.mem_cons_of_mem c hx)]
    rfl

theorem goLen_ascii {s : String} (h : ∀ c ∈ s.data, c.toNat < 128) :
    goLen s = s.data.length := by
  unfold goLen strBytes
  rw [strBytes_ascii_of_chars h, List.length_map]

theorem goTakeAux_ascii {l : List Char} (h : ∀ c ∈ l, c.toNat < 128) (n : Nat) :
    goTakeAux l n = l.take n := by
  induction l generalizing n with
  | nil => simp [goTakeAux]
  | cons c cs ih =>
    have hc : c.toNat < 128 := h c (List.mem_cons_self c cs)
    have hcs : ∀ x ∈ cs, x.toNat < 128 := fun x hx => h x (List.mem_cons_of_mem c hx)
    unfold goTakeAux
    rw [utf8Bytes_ascii hc]
    simp only [List.length_singleton]
    cases n with
    | zero => simp
    | succ m =>
      rw [if_pos (by omega), ih hcs]
      simp [List.take_succ_cons]

theorem sanitized_chars (s : String) :
    ∀ c ∈ (toRFC5424CompliantASCIIString s).data, 33 ≤ c.toNat ∧ c.toNat ≤ 126 := by
  intro c hc
  unfold toRFC5424CompliantASCIIString at hc
  simp only [List.mem_map] at hc
  obtain ⟨c₀, _, rfl⟩ := hc
  exact mapper_range c₀

/-- How `NewSyslogEncoder` determines the stored hostname: the input, or
the OS hostname if the input is empty; `-` if both are empty; otherwise
sanitized and byte-truncated to 255. -/
theorem newEnc_hostname (osh : String) (opid : Int) (cfg : SyslogEncoderConfig) :
    (NewSyslogEncoder osh opid cfg).hostname =
      (let h0 := if cfg.hostname = "" then osh else cfg.hostname
       if h0 = "" then nilValue
       else
         let h := toRFC5424CompliantASCIIString h0
         if goLen h > maxHostnameLen then goTake h maxHostnameLen else h) := by
  simp only [NewSyslogEncoder]
  repeat' split
  all_goals rfl

theorem newEnc_lineEnding (osh : String) (opid : Int) (cfg : SyslogEncoderConfig) :
    (NewSyslogEncoder osh opid cfg).lineEnding = "\n" := by
  simp only [NewSyslogEncoder]

/-- The stored app-name: `-` for an empty input, otherwise the raw input
(the normalized value is computed into a local and discarded). -/
theorem newEnc_app (osh : String) (opid : Int) (cfg : SyslogEncoderConfig) :
    (NewSyslogEncoder osh opid cfg).app = (if cfg.app = "" then nilValue else cfg.app) := by
  simp only [NewSyslogEncoder]
  repeat' split
  all_goals rfl

/-- Conditional byte-truncation of an all-ASCII string to 255 bytes equals
unconditionally taking its first 255 characters. -/
theorem hostname_trunc_eq (h : String) (hs : ∀ c ∈ h.data, c.toNat < 128) :
    (if goLen h > maxHostnameLen then goTake h maxHostnameLen else h).data
      = h.data.take 255 := by
  rw [goLen_ascii hs]
  unfold maxHostnameLen
  split
  · show goTakeAux h.data 255 = _
    exact goTakeAux_ascii hs 255
  · rename_i hle
    rw [List.take_of_length_le (by omega)]

theorem sanitized_ascii (s : String) :
    ∀ c ∈ (toRFC5424CompliantASCIIString s).data, c.toNat < 128 := by
  intro c hc
  have := (sanitized_chars s c hc).2
  omega

/-- Shape of a non-transparent-framed message with non-empty payload. -/
theorem encode_nonTransparent (cfg : SyslogEncoderConfig) (ent : Entry)
    (payload : List Nat) (h : cfg.framing = .nonTransparent)
    (hp : payload.length > 0) :
    EncodeEntry cfg ent payload
      = (headerBytes cfg ent ++ (strBytes " " ++ [0xef, 0xbb, 0xbf])) ++ payload := by
  simp [EncodeEntry, h, hp, List.append_assoc]

/-- Shape of an octet-counting-framed message with non-empty payload. -/
theorem encode_octet (cfg : SyslogEncoderConfig) (ent : Entry)
    (payload : List Nat) (h : cfg.framing = .octetCounting)
    (hp : payload.length > 0) :
    EncodeEntry cfg ent payload
      = strBytes (toString ((headerBytes cfg ent ++ (strBytes " " ++ [0xef, 0xbb, 0xbf]))
            ++ payload.dropLast).length)
        ++ strBytes " "
        ++ ((headerBytes cfg ent ++ (strBytes " " ++ [0xef, 0xbb, 0xbf]))
            ++ payload.dropLast) := by
  simp [EncodeEntry, h, hp, List.append_assoc]

/-! ### Claim theorems -/

/-- C1 (code bug): for the non-empty app-name "my app", `NewSyslogEncoder`
stores the raw input unchanged — it still contains the byte 32 (< 33) —
while the normalization it computes (and discards) would have produced
"my_app". -/
theorem appname_normalization_discarded :
    (NewSyslogEncoder "host" 1
        { lineEnding := "", framing := .nonTransparent, facility := 128,
          hostname := "localhost", pid := 9876, app := "my app" }).app = "my app"
    ∧ normalizeAppName "my app" = "my_app"
    ∧ (32 : Nat) ∈ strBytes (NewSyslogEncoder "host" 1
        { lineEnding := "", framing := .nonTransparent, facility := 128,
          hostname := "localhost", pid := 9876, app := "my app" }).app := by
  decide

/-- C2: for every level and facility the priority `EncodeEntry` computes is
`(facility & 0xF8) | (severity & 0x07)` with the specified severity table,
the pair (debug, LOCAL0) yields 135, and the non-transparent message
starts with `<`, the decimal priority, `>`. -/
theorem priority_matches_spec :
    (∀ (l : Level) (facility : Nat),
      priorityFor facility l = (facility &&& 0xf8) ||| (severitySpec l &&& 0x07))
    ∧ priorityFor LOG_LOCAL0 .debug = 135
    ∧ ∀ (cfg : SyslogEncoderConfig) (ent : Entry) (payload : List Nat),
        cfg.framing = .nonTransparent →
        ∃ rest, EncodeEntry cfg ent payload =
          strBytes "<" ++ strBytes (toString (priorityFor cfg.facility ent.level))
            ++ strBytes ">" ++ rest := by
  refine ⟨?_, by decide, ?_⟩
  · intro l facility
    cases l <;> rfl
  · intro cfg ent payload hf
    refine ⟨strBytes (toString version)
      ++ strBytes " " ++ strBytes (timestampField ent.time)
      ++ strBytes " " ++ strBytes cfg.hostname
      ++ strBytes " " ++ strBytes cfg.app
      ++ strBytes " " ++ strBytes (toString cfg.pid)
      ++ strBytes " - -"
      ++ (if payload.length > 0 then
            strBytes " " ++ [0xef, 0xbb, 0xbf] ++ payload
          else []), ?_⟩
    simp [EncodeEntry, headerBytes, hf, List.append_assoc]

/-- Witness for `priority_matches_spec`. -/
theorem priority_matches_spec_witness :
    ∃ rest, EncodeEntry
        { lineEnding := "\n", framing := .nonTransparent, facility := 128,
          hostname := "h", pid := 1, app := "a" }
        { level := .debug, time := goDate 2017 1 2 3 4 5 0 0 } [] =
      strBytes "<" ++ strBytes (toString (priorityFor 128 .debug))
        ++ strBytes ">" ++ rest :=
  priority_matches_spec.2.2
    { lineEnding := "\n", framing := .nonTransparent, facility := 128,
      hostname := "h", pid := 1, app := "a" }
    { level := .debug, time := goDate 2017 1 2 3 4 5 0 0 } [] rfl

/-- C6 (counterexample): for a timestamp with attached zone +01:00 the
emitted TIMESTAMP field carries that offset instead of the claimed UTC
rendering. -/
theorem timestamp_not_utc_cex :
    timestampField (goDate 2017 1 2 3 4 5 123456789 3600)
      ≠ timestampFieldSpecUTC (goDate 2017 1 2 3 4 5 123456789 3600)
    ∧ timestampField (goDate 2017 1 2 3 4 5 123456789 3600)
        = "2017-01-02T03:04:05.123456+01:00"
    ∧ timestampFieldSpecUTC (goDate 2017 1 2 3 4 5 123456789 3600)
        = "2017-01-02T02:04:05.123456Z" := by
  decide

/-- C6 (amended): the TIMESTAMP field is `-` for the zero time and
otherwise the RFC3339/6-digit rendering of the timestamp in its *attached*
zone; this agrees with the claimed UTC rendering when the attached offset
is zero. -/
theorem timestamp_field_amended :
    ∀ t : GoTime,
      (t.isZero = true → timestampField t = nilValue)
      ∧ (t.isZero = false → timestampField t = goFormatTimestamp t)
      ∧ (t.offset = 0 → timestampField t = timestampFieldSpecUTC t) := by
  intro t
  refine ⟨fun h => by simp [timestampField, h],
          fun h => by simp [timestampField, h], fun h => ?_⟩
  have : ({ t with offset := 0 } : GoTime) = t := by
    cases t
    simp_all
  unfold timestampField timestampFieldSpecUTC
  rw [this]

/-- Witness for `timestamp_field_amended`. -/
theorem timestamp_field_amended_witness :
    timestampField (goDate 2017 1 2 3 4 5 123456789 0)
        = goFormatTimestamp (goDate 2017 1 2 3 4 5 123456789 0)
    ∧ timestampField (goDate 2017 1 2 3 4 5 123456789 0)
        = timestampFieldSpecUTC (goDate 2017 1 2 3 4 5 123456789 0) :=
  ⟨(timestamp_field_amended (goDate 2017 1 2 3 4 5 123456789 0)).2.1 (by decide),
   (timestamp_field_amended (goDate 2017 1 2 3 4 5 123456789 0)).2.2 (by decide)⟩

/-- C7 (counterexample): with a non-empty OS hostname, an empty hostname
input is stored as the (sanitized) OS hostname, not as `-`. -/
theorem hostname_empty_fallback_cex :
    (NewSyslogEncoder "myhost" 1
        { lineEnding := "", framing := .nonTransparent, facility := 128,
          hostname := "", pid := 9876, app := "app" }).hostname = "myhost"
    ∧ ("myhost" : String) ≠ nilValue := by
  decide

/-- C7 (amended): the sanitizer replaces exactly the runes with codepoint
< 33 or > 126 by one `_` each (length preserved, output in 33–126), a
non-empty hostname is stored sanitized and truncated to 255 characters,
and an *empty* hostname input falls back to the OS hostname (likewise
sanitized and truncated); `-` is stored only when that is empty too. -/
theorem sanitizer_and_hostname :
    ∀ (s osh : String) (opid : Int) (cfg : SyslogEncoderConfig),
      (toRFC5424CompliantASCIIString s).data = s.data.map sanitizeMapperSpec
      ∧ (toRFC5424CompliantASCIIString s).data.length = s.data.length
      ∧ (∀ c ∈ (toRFC5424CompliantASCIIString s).data, 33 ≤ c.toNat ∧ c.toNat ≤ 126)
      ∧ (cfg.hostname ≠ "" →
          (NewSyslogEncoder osh opid cfg).hostname.data
            = ((toRFC5424CompliantASCIIString cfg.hostname).data).take 255)
      ∧ (cfg.hostname = "" → osh ≠ "" →
          (NewSyslogEncoder osh opid cfg).hostname.data
            = ((toRFC5424CompliantASCIIString osh).data).take 255)
      ∧ (cfg.hostname = "" → osh = "" →
          (NewSyslogEncoder osh opid cfg).hostname = nilValue) := by
  intro s osh opid cfg
  refine ⟨?_, ?_, sanitized_chars s, ?_, ?_, ?_⟩
  · show s.data.map rfc5424CompliantASCIIMapper = _
    exact List.map_congr_left fun c _ => mapper_eq_spec c
  · show (s.data.map rfc5424CompliantASCIIMapper).length = _
    exact List.length_map s.data _
  · intro hne
    rw [newEnc_hostname]
    simp only [if_neg hne]
    exact hostname_trunc_eq _ (sanitized_ascii cfg.hostname)
  · intro he hosne
    rw [newEnc_hostname]
    simp only [he, if_true]
    rw [if_neg hosne]
    exact hostname_trunc_eq _ (sanitized_ascii osh)
  · intro he hose
    rw [newEnc_hostname]
    simp [he, hose]

/-- Witness for `sanitizer_and_hostname`. -/
theorem sanitizer_and_hostname_witness :
    (NewSyslogEncoder "os" 1
        { lineEnding := "", framing := .nonTransparent, facility := 128,
          hostname := "a b", pid := 1, app := "x" }).hostname.data
      = ((toRFC5424CompliantASCIIString "a b").data).take 255
    ∧ (NewSyslogEncoder "" 1
        { lineEnding := "", framing := .nonTransparent, facility := 128,
          hostname := "", pid := 1, app := "x" }).hostname = nilValue :=
  ⟨((sanitizer_and_hostname "" "os" 1
      { lineEnding := "", framing := .nonTransparent, facility := 128,
        hostname := "a b", pid := 1, app := "x" }).2.2.2.1) (by decide),
   ((sanitizer_and_hostname "" "" 1
      { lineEnding := "", framing := .nonTransparent, facility := 128,
        hostname := "", pid := 1, app := "x" }).2.2.2.2.2) rfl rfl⟩

/-- C9: every facility name in the table resolves — in its table form, its
lower-case form and its upper-case form — to its priority with no error;
any name whose upper-casing is not in the table yields priority 0 and an
error; and for ASCII inputs (where the upper-casing model is exactly Go's)
that error message carries the upper-cased name. -/
theorem facility_lookup_ok :
    (∀ p ∈ facilityMap,
      FacilityPriority p.1 = (p.2, none)
      ∧ FacilityPriority (goToLower p.1) = (p.2, none)
      ∧ FacilityPriority (goToUpper p.1) = (p.2, none))
    ∧ (∀ s : String, facilityMap.lookup (goToUpper s) = none →
        (FacilityPriority s).1 = 0 ∧ ∃ msg, (FacilityPriority s).2 = some msg)
    ∧ (∀ s : String, (∀ c ∈ s.data, c.toNat < 128) →
        facilityMap.lookup (goToUpper s) = none →
        FacilityPriority s = (0, some ("invalid syslog facility: " ++ goToUpper s))) := by
  refine ⟨by decide, ?_, ?_⟩
  · intro s h
    simp only [FacilityPriority]
    rw [h]
    exact ⟨rfl, _, rfl⟩
  · intro s _ h
    simp only [FacilityPriority]
    rw [h]

/-- Witness for `facility_lookup_ok`: resolving "LOCAL0", and the error
for the unknown name "zzz" echoing its upper-cased form "ZZZ" as the Go
code does. -/
theorem facility_lookup_ok_witness :
    FacilityPriority "LOCAL0" = (128, none)
    ∧ FacilityPriority "zzz" = (0, some "invalid syslog facility: ZZZ") :=
  ⟨(facility_lookup_ok.1 ("LOCAL0", 128) (by decide)).1,
   (facility_lookup_ok.2.2 "zzz" (by decide) (by decide)).trans (by decide)⟩

/-- The configuration of the repository's own `TestSyslogEncoder`
(`testEncoderConfig` in `encoder_test.go`). -/
def testEncoderConfig : SyslogEncoderConfig :=
  { lineEnding := "", framing := DefaultFraming, facility := LOG_LOCAL0,
    hostname := "localhost", pid := 9876, app := "encoder_test" }

/-- The repository's `testEntry`:
`time.Date(2017, 1, 2, 3, 4, 5, 123456789, time.UTC)`, debug level. -/
def testEntry : Entry :=
  { level := .debug, time := goDate 2017 1 2 3 4 5 123456789 0 }

/-- The expected message prefix of the golden test: the header followed by
the 3-byte BOM. -/
def c5Prefix : List Nat :=
  strBytes "<135>1 2017-01-02T03:04:05.123456Z localhost encoder_test 9876 - - "
    ++ [0xef, 0xbb, 0xbf]

/-- C5: with hostname "localhost", app "encoder_test", pid 9876, facility
LOCAL0, a debug entry at 2017-01-02T03:04:05.123456789Z and any non-empty
payload, the encoded buffer is exactly the golden header prefix and BOM
followed by the payload. -/
theorem header_reproduction :
    ∀ payload : List Nat, payload ≠ [] →
      EncodeEntry (NewSyslogEncoder "oshost" 1 testEncoderConfig) testEntry payload
        = c5Prefix ++ payload := by
  intro p hp
  have hlen : p.length > 0 := List.length_pos.mpr hp
  have hcfg : NewSyslogEncoder "oshost" 1 testEncoderConfig =
      { lineEnding := "\n", framing := .nonTransparent, facility := 128,
        hostname := "localhost", pid := 9876, app := "encoder_test" } := by decide
  rw [hcfg, encode_nonTransparent _ _ _ rfl hlen]
  have hh : headerBytes
      { lineEnding := "\n", framing := .nonTransparent, facility := 128,
        hostname := "localhost", pid := 9876, app := "encoder_test" } testEntry
      ++ (strBytes " " ++ [0xef, 0xbb, 0xbf]) = c5Prefix := by decide
  rw [hh]

/-- Witness for `header_reproduction`. -/
theorem header_reproduction_witness :
    EncodeEntry (NewSyslogEncoder "oshost" 1 testEncoderConfig) testEntry [123]
      = c5Prefix ++ [123] :=
  header_reproduction [123] (by decide)

/-- C3: for a non-empty payload, if the non-transparent encoding is the
message `m` of length `L` ending in a newline, the octet-counting encoding
of the same entry and payload is the decimal rendering of `L-1`, a space,
and the first `L-1` bytes of `m`. -/
theorem octet_framing_relation :
    ∀ (cfg : SyslogEncoderConfig) (ent : Entry) (payload : List Nat),
      payload ≠ [] →
      (EncodeEntry { cfg with framing := .nonTransparent } ent payload).getLast?
        = some 10 →
      EncodeEntry { cfg with framing := .octetCounting } ent payload
        = strBytes (toString
            ((EncodeEntry { cfg with framing := .nonTransparent } ent payload).length - 1))
          ++ strBytes " "
          ++ (EncodeEntry { cfg with framing := .nonTransparent } ent payload).take
              ((EncodeEntry { cfg with framing := .nonTransparent } ent payload).length - 1) := by
  intro cfg ent payload hne _hlast
  have hlen : payload.length > 0 := List.length_pos.mpr hne
  have hhdr : headerBytes { cfg with framing := .octetCounting } ent
      = headerBytes { cfg with framing := .nonTransparent } ent := rfl
  rw [encode_octet _ _ _ rfl hlen, encode_nonTransparent _ _ _ rfl hlen, hhdr]
  set B := headerBytes { cfg with framing := .nonTransparent } ent
    ++ (strBytes " " ++ [0xef, 0xbb, 0xbf]) with hB
  have htake : (B ++ payload).take ((B ++ payload).length - 1) = B ++ payload.dropLast := by
    rw [← List.dropLast_eq_take]
    exact List.dropLast_append_of_ne_nil _ hne
  have hlen2 : (B ++ payload).length - 1 = (B ++ payload.dropLast).length := by
    simp only [List.length_append, List.length_dropLast]
    omega
  rw [htake, hlen2]

/-- Witness for `octet_framing_relation`. -/
theorem octet_framing_relation_witness :
    EncodeEntry { testEncoderConfig with framing := .octetCounting } testEntry [123, 10]
      = strBytes (toString
          ((EncodeEntry { testEncoderConfig with framing := .nonTransparent }
              testEntry [123, 10]).length - 1))
        ++ strBytes " "
        ++ (EncodeEntry { testEncoderConfig with framing := .nonTransparent }
              testEntry [123, 10]).take
            ((EncodeEntry { testEncoderConfig with framing := .nonTransparent }
                testEntry [123, 10]).length - 1) :=
  octet_framing_relation testEncoderConfig testEntry [123, 10] (by decide) (by decide)

/-- C10: encoder construction forces LineEnding to "\n" whatever the caller
configured, so the modelled JSON payload always ends in a newline byte,
and a non-transparent-framed message built from it carries exactly one
trailing newline (the serialized JSON content itself is newline-free). -/
theorem line_ending_forced :
    ∀ (osh : String) (opid : Int) (cfgIn cfg : SyslogEncoderConfig)
      (content : String) (ent : Entry),
      cfg = NewSyslogEncoder osh opid cfgIn →
      cfg.lineEnding = "\n"
      ∧ jsonPayloadBytes cfg content ≠ []
      ∧ (jsonPayloadBytes cfg content).getLast? = some 10
      ∧ ((∀ b ∈ strBytes content, b ≠ 10) → cfg.framing = .nonTransparent →
          (EncodeEntry cfg ent (jsonPayloadBytes cfg content)).getLast? = some 10
          ∧ (EncodeEntry cfg ent (jsonPayloadBytes cfg content)).dropLast.getLast?
              ≠ some 10) := by
  intro osh opid cfgIn cfg content ent hcfg
  have hle : cfg.lineEnding = "\n" := by rw [hcfg]; exact newEnc_lineEnding osh opid cfgIn
  have hnl : strBytes "\n" = [10] := by decide
  have hjp : jsonPayloadBytes cfg content = strBytes content ++ [10] := by
    unfold jsonPayloadBytes
    rw [hle, hnl]
  refine ⟨hle, ?_, ?_, ?_⟩
  · rw [hjp]
    simp
  · rw [hjp]
    exact List.getLast?_concat _
  · intro hnb hfr
    have hplen : (jsonPayloadBytes cfg content).length > 0 := by
      rw [hjp]
      simp
    have hshape : EncodeEntry cfg ent (jsonPayloadBytes cfg content)
        = ((headerBytes cfg ent ++ (strBytes " " ++ [0xef, 0xbb, 0xbf]))
            ++ strBytes content) ++ [10] := by
      rw [encode_nonTransparent cfg ent _ hfr hplen, hjp]
      simp [List.append_assoc]
    rw [hshape]
    refine ⟨List.getLast?_concat _, ?_⟩
    rw [List.dropLast_concat]
    cases hc : (strBytes content).getLast? with
    | none =>
      have hcn : strBytes content = [] := List.getLast?_eq_none_iff.mp hc
      simp [List.getLast?_append, hcn]
    | some b =>
      have hb : b ∈ strBytes content := by
        obtain ⟨hx, hxe⟩ := List.mem_getLast?_eq_getLast (Option.mem_def.mpr hc)
        rw [hxe]
        exact List.getLast_mem hx
      have hb10 : b ≠ 10 := hnb b hb
      simp [List.getLast?_append, List.getLast?_cons, hc, hb10]

/-- Witness for `line_ending_forced`. -/
theorem line_ending_forced_witness :
    (NewSyslogEncoder "oshost" 1 testEncoderConfig).lineEnding = "\n"
    ∧ (EncodeEntry (NewSyslogEncoder "oshost" 1 testEncoderConfig) testEntry
        (jsonPayloadBytes (NewSyslogEncoder "oshost" 1 testEncoderConfig) "fake")).getLast?
        = some 10 :=
  ⟨(line_ending_forced "oshost" 1 testEncoderConfig _ "fake" testEntry rfl).1,
   ((line_ending_forced "oshost" 1 testEncoderConfig _ "fake" testEntry rfl).2.2.2
      (by decide) (by decide)).1⟩

/-- C4: one `Write` call either returns the first write's count (live
connection, successful write — no other action), or performs exactly one
reconnect: close of the stale connection if present, exactly one dial, and
on dial success exactly one retried write whose result is returned as-is;
a dial failure is returned as the call's error.  The trace never holds
more than one dial event. -/
theorem write_reconnect_once :
    ∀ (net : Net) (s : SyncerState) (res : Except Nat Nat) (s' : SyncerState)
      (tr : List Ev),
      connSyncerWrite net s = (res, s', tr) →
      tr.count Ev.dial ≤ 1
      ∧ (∀ c n, s.conn = some c → net.write c = .ok n →
          res = .ok n ∧ s' = s ∧ tr = [Ev.write c])
      ∧ ((s.conn = none ∨ ∃ c e, s.conn = some c ∧ net.write c = .error e) →
          (∀ e, net.dial = .error e →
            res = .error e ∧ s' = ⟨none⟩ ∧ tr = preEvs s ++ (closeEvs s ++ [Ev.dial]))
          ∧ (∀ c', net.dial = .ok c' →
            res = net.write c' ∧ s' = ⟨some c'⟩
            ∧ tr = preEvs s ++ (closeEvs s ++ [Ev.dial, Ev.write c']))) := by
  intro net s res s' tr h
  obtain ⟨conn⟩ := s
  cases conn with
  | none =>
    cases hd : net.dial with
    | error e =>
      simp only [connSyncerWrite, connSyncerRetry, connSyncerConnect, hd,
        closeEvs, preEvs, List.nil_append, Prod.mk.injEq] at h
      obtain ⟨rfl, rfl, rfl⟩ := h
      refine ⟨by decide, ?_, fun _ => ⟨?_, ?_⟩⟩
      · intro c n hc _
        simp at hc
      · intro e' hd'
        obtain rfl : e = e' := Except.error.inj hd'
        exact ⟨rfl, rfl, rfl⟩
      · intro c' hd'
        exact absurd hd' (by simp)
    | ok c' =>
      simp only [connSyncerWrite, connSyncerRetry, connSyncerConnect, hd,
        closeEvs, preEvs, List.nil_append, Prod.mk.injEq] at h
      obtain ⟨rfl, rfl, rfl⟩ := h
      refine ⟨by simp, ?_, fun _ => ⟨?_, ?_⟩⟩
      · intro c n hc _
        simp at hc
      · intro e' hd'
        exact absurd hd' (by simp)
      · intro c'' hd'
        obtain rfl : c' = c'' := Except.ok.inj hd'
        exact ⟨rfl, rfl, rfl⟩
  | some c =>
    cases hw : net.write c with
    | ok n =>
      simp only [connSyncerWrite, hw, Prod.mk.injEq] at h
      obtain ⟨rfl, rfl, rfl⟩ := h
      refine ⟨by simp, ?_, ?_⟩
      · intro c₀ n₀ hc hw₀
        obtain rfl : c = c₀ := Option.some.inj hc
        obtain rfl : n = n₀ := Except.ok.inj (hw.symm.trans hw₀)
        exact ⟨rfl, rfl, rfl⟩
      · rintro (hcn | ⟨c₀, e₀, hc, hw₀⟩)
        · cases hcn
        · obtain rfl : c = c₀ := Option.some.inj hc
          exact absurd (hw.symm.trans hw₀) (by simp)
    | error e =>
      cases hd : net.dial with
      | error e' =>
        simp only [connSyncerWrite, connSyncerRetry, connSyncerConnect, hw, hd,
          closeEvs, preEvs, Prod.mk.injEq] at h
        obtain ⟨rfl, rfl, rfl⟩ := h
        refine ⟨by simp, ?_, fun _ => ⟨?_, ?_⟩⟩
        · intro c₀ n₀ hc hw₀
          obtain rfl : c = c₀ := Option.some.inj hc
          exact absurd (hw.symm.trans hw₀) (by simp)
        · intro e'' hd'
          obtain rfl : e' = e'' := Except.error.inj hd'
          exact ⟨rfl, rfl, rfl⟩
        · intro c'' hd'
          exact absurd hd' (by simp)
      | ok c' =>
        simp only [connSyncerWrite, connSyncerRetry, connSyncerConnect, hw, hd,
          closeEvs, preEvs, Prod.mk.injEq] at h
        obtain ⟨rfl, rfl, rfl⟩ := h
        refine ⟨by simp, ?_, fun _ => ⟨?_, ?_⟩⟩
        · intro c₀ n₀ hc hw₀
          obtain rfl : c = c₀ := Option.some.inj hc
          exact absurd (hw.symm.trans hw₀) (by simp)
        · intro e'' hd'
          exact absurd hd' (by simp)
        · intro c'' hd'
          obtain rfl : c' = c'' := Except.ok.inj hd'
          exact ⟨rfl, rfl, rfl⟩

/-- A network for the witness: connection 0 fails its write, the dial
produces connection 1, whose write succeeds with count 5. -/
def witnessNet : Net :=
  { dial := .ok 1
    write := fun c => if c = 0 then .error 7 else .ok 5 }

/-- Witness for `write_reconnect_once`: starting with live connection 0
whose write fails, one call closes it, dials, retries on connection 1 and
returns its count. -/
theorem write_reconnect_once_witness :
    (connSyncerWrite witnessNet ⟨some 0⟩).1 = .ok 5
    ∧ (connSyncerWrite witnessNet ⟨some 0⟩).2.1 = ⟨some 1⟩
    ∧ (connSyncerWrite witnessNet ⟨some 0⟩).2.2
        = [Ev.write 0, Ev.close 0, Ev.dial, Ev.write 1] := by
  have h := ((write_reconnect_once witnessNet ⟨some 0⟩
      (connSyncerWrite witnessNet ⟨some 0⟩).1
      (connSyncerWrite witnessNet ⟨some 0⟩).2.1
      (connSyncerWrite witnessNet ⟨some 0⟩).2.2 rfl).2.2
      (Or.inr ⟨0, 7, rfl, rfl⟩)).2 1 rfl
  refine ⟨h.1.trans rfl, h.2.1, ?_⟩
  rw [h.2.2]
  rfl

/-- C8: cloning an encoder yields a fresh instance initialized from the
original that shares its configuration, and whose accumulated-fields state
is independent: adding a field to the clone leaves the original's state
and encoded output unchanged, and vice versa. -/
theorem clone_independent :
    ∀ (h : EncHeap) (i : Nat) (f g : SField) (ent : Entry)
      (ser : List SField → List Nat),
      i < h.length →
      ∀ h' j, cloneEnc h i = (h', j) →
        j ≠ i
        ∧ h'[j]? = h[i]?
        ∧ (addFieldEnc h' j f)[i]? = h[i]?
        ∧ encOutput (addFieldEnc h' j f) i ent ser = encOutput h i ent ser
        ∧ (addFieldEnc h' i g)[j]? = h'[j]?
        ∧ encOutput (addFieldEnc h' i g) j ent ser = encOutput h' j ent ser := by
  intro h i f g ent ser hi h' j hc
  have hie : h[i]? = some h[i] := List.getElem?_eq_getElem hi
  unfold cloneEnc at hc
  rw [hie] at hc
  obtain ⟨rfl, rfl⟩ := Prod.mk.injEq .. ▸ hc
  have hji : h.length ≠ i := Nat.ne_of_gt hi
  have happ : (h ++ [h[i]])[i]? = h[i]? := List.getElem?_append_left hi
  have hconcat : (h ++ [h[i]])[h.length]? = some h[i] := List.getElem?_concat_length h h[i]
  have hclone : (h ++ [h[i]])[h.length]? = h[i]? := by rw [hconcat, hie]
  have haddj : ∀ v : SField, (addFieldEnc (h ++ [h[i]]) h.length v)[i]? = h[i]? := by
    intro v
    unfold addFieldEnc
    rw [hconcat]
    rw [List.getElem?_set_ne hji, happ]
  have haddi : ∀ v : SField, (addFieldEnc (h ++ [h[i]]) i v)[h.length]?
      = (h ++ [h[i]])[h.length]? := by
    intro v
    unfold addFieldEnc
    rw [happ, hie]
    exact List.getElem?_set_ne (Ne.symm hji)
  refine ⟨hji, hclone, haddj f, ?_, haddi g, ?_⟩
  · unfold encOutput
    rw [haddj f, hie]
  · unfold encOutput
    rw [haddi g]

/-- Witness for `clone_independent`: one live encoder, cloned, each side
extended with a different field. -/
theorem clone_independent_witness :
    (addFieldEnc ([(testEncoderConfig, [("k", "v")])] ++ [(testEncoderConfig, [("k", "v")])])
        1 ("a", "1"))[0]? = some (testEncoderConfig, [("k", "v")])
    ∧ (addFieldEnc ([(testEncoderConfig, [("k", "v")])] ++ [(testEncoderConfig, [("k", "v")])])
        0 ("b", "2"))[1]? = some (testEncoderConfig, [("k", "v")]) := by
  have h := clone_independent [(testEncoderConfig, [("k", "v")])] 0 ("a", "1") ("b", "2")
    testEntry (fun _ => []) (by decide)
    ([(testEncoderConfig, [("k", "v")])] ++ [(testEncoderConfig, [("k", "v")])]) 1 rfl
  exact ⟨h.2.2.1, h.2.2.2.2.1⟩

end ZapSyslog
